import Mathlib

/-
Shallow embedding of the BiometricFlow-ZK aggregation gateway core:
`src/biometric_flow/core/security.py` (security middleware, rate limiter,
JWT token service, IP allow-list, malicious-pattern scan) and
`src/biometric_flow/backend/unified_gateway.py` (per-backend call
classification, fan-out, merge, user deduplication).
-/

namespace BiometricFlow

/-- JSON-like values: the Python dicts/lists/strings/numbers that the gateway
passes around (upstream response bodies, merged entities). Python dicts are
modelled as ordered association lists with unique keys maintained by
`jset`/`jsetList` (assignment replaces in place, new keys append — Python
dict semantics). -/
inductive JVal where
  | null : JVal
  | bool : Bool → JVal
  | num : Int → JVal
  | str : String → JVal
  | arr : List JVal → JVal
  | obj : List (String × JVal) → JVal

/-- Lookup of a key in an association list (Python `d[k]` / `d.get(k)`). -/
def jlookup : List (String × JVal) → String → Option JVal
  | [], _ => none
  | (k, v) :: rest, key => if k = key then some v else jlookup rest key

/-- Python `d[k] = v` on an association list: replace the first binding of the
key in place, else append a new binding. -/
def jsetList : List (String × JVal) → String → JVal → List (String × JVal)
  | [], key, v => [(key, v)]
  | (k, w) :: rest, key, v =>
      if k = key then (key, v) :: rest else (k, w) :: jsetList rest key v

/-- Python `d.get(k)` on a JSON value: `none` when not a dict or key absent. -/
def jget : JVal → String → Option JVal
  | .obj kvs, key => jlookup kvs key
  | _, _ => none

/-- Python `d[k] = v` on a JSON value (no-op on non-dicts; the gateway only
performs assignment on dicts). -/
def jset : JVal → String → JVal → JVal
  | .obj kvs, key, v => .obj (jsetList kvs key v)
  | other, _, _ => other

/-- Python `d.get(k, default)`. -/
def jgetD (v : JVal) (k : String) (d : JVal) : JVal := (jget v k).getD d

/-- Python truthiness of a JSON value. -/
def truthy : JVal → Bool
  | .null => false
  | .bool b => b
  | .num n => n != 0
  | .str s => s != ""
  | .arr xs => !xs.isEmpty
  | .obj kvs => !kvs.isEmpty

/-- Python truthiness of `d.get(k)` (missing key → `None` → falsy). -/
def truthyOpt : Option JVal → Bool
  | none => false
  | some v => truthy v

/-- Python `isinstance(x, dict)`. -/
def isObj : JVal → Bool
  | .obj _ => true
  | _ => false

mutual

/-- Python `==` between JSON values (deep structural equality), used by the
gateway only through list membership (`place_location not in places`). -/
def jvalBEq : JVal → JVal → Bool
  | .null, .null => true
  | .bool a, .bool b => a == b
  | .num a, .num b => a == b
  | .str a, .str b => a == b
  | .arr xs, .arr ys => jarrBEq xs ys
  | .obj xs, .obj ys => jobjBEq xs ys
  | _, _ => false

/-- Deep equality on JSON arrays (component of `jvalBEq`). -/
def jarrBEq : List JVal → List JVal → Bool
  | [], [] => true
  | x :: xs, y :: ys => jvalBEq x y && jarrBEq xs ys
  | _, _ => false

/-- Deep equality on JSON objects (component of `jvalBEq`). -/
def jobjBEq : List (String × JVal) → List (String × JVal) → Bool
  | [], [] => true
  | (k1, v1) :: xs, (k2, v2) :: ys => k1 == k2 && jvalBEq v1 v2 && jobjBEq xs ys
  | _, _ => false

end

/-- Python `x in xs` for a list of JSON values. -/
def jmem (x : JVal) : List JVal → Bool
  | [] => false
  | y :: ys => jvalBEq y x || jmem x ys

/-- One entry of the backend registry `config.backends` (`unified_gateway.py`,
`UnifiedConfig._load_backend_configs`): name, base url, location, timeout.
The `devices`/`description` entries are never consulted by the fan-out or
merge code and are omitted. -/
structure Backend where
  name : String
  url : String
  location : String
  timeout : Int
deriving DecidableEq, Repr

/-- Outcome of the single outbound HTTP interaction performed inside
`call_backend`: an HTTP response with a status and parsed JSON body, an
`asyncio.TimeoutError`, or any other exception (connection error). -/
inductive UpstreamOutcome where
  | http (status : Nat) (body : JVal)
  | timeout
  | connectionError

/-- Error-classification dictionary built by every non-200 branch of
`call_backend`: `{"success": False, "error": msg, "error_code": code,
"_backend_name": ..., "_backend_url": ..., "_place_location": ...}`. -/
def errObj (b : Backend) (msg code : String) : JVal :=
  .obj [("success", .bool false), ("error", .str msg), ("error_code", .str code),
        ("_backend_name", .str b.name), ("_backend_url", .str b.url),
        ("_place_location", .str b.location)]

/-- The 200-branch tagging of `call_backend`: on a dict body, set
`_backend_name`, `_backend_url`, `_place_location`, `_response_time` in that
order (`data['_backend_name'] = backend_name` etc.). The `X-Process-Time`
response header is not modelled, so `_response_time` carries the
`'unknown'` default. -/
def tagSuccess (b : Backend) (v : JVal) : JVal :=
  jset (jset (jset (jset v "_backend_name" (.str b.name))
    "_backend_url" (.str b.url)) "_place_location" (.str b.location))
    "_response_time" (.str "unknown")

/-- Classification core of `call_backend` (`unified_gateway.py` lines
189-259): given the outcome of the outbound call to backend `b`, return the
JSON value the coroutine produces. Mirrors the `if/elif` chain on
`response.status` and the two `except` clauses. The request-header
construction (API key, JWT attachment) is outbound I/O with no effect on the
returned classification and is not modelled. -/
def call_backend (b : Backend) (o : UpstreamOutcome) : JVal :=
  match o with
  | .http status body =>
      if status = 200 then
        match body with
        | .obj kvs => tagSuccess b (.obj kvs)
        | other => other
      else if status = 401 then
        errObj b ("Authentication failed for backend " ++ b.name) "AUTH_FAILED"
      else if status = 403 then
        errObj b ("Access denied for backend " ++ b.name) "ACCESS_DENIED"
      else if 500 ≤ status then
        errObj b ("Backend " ++ b.name ++ " server error") "SERVER_ERROR"
      else
        errObj b ("Backend " ++ b.name ++ " returned status " ++ toString status) "HTTP_ERROR"
  | .timeout => errObj b (b.name ++ " timeout") "TIMEOUT"
  | .connectionError => errObj b "Backend communication error" "CONNECTION_ERROR"

/-- Fan-out helper `call_all_backends`: one `call_backend` task per registry
entry, gathered in task order (`asyncio.gather` preserves the order of
`tasks`), then filtered by `isinstance(result, dict)` — which also discards
any exception objects admitted by `return_exceptions=True`. The network is
modelled by the function `outcomes` assigning each backend its upstream
outcome. -/
def call_all_backends (backends : List Backend) (outcomes : Backend → UpstreamOutcome) :
    List JVal :=
  (backends.map fun b => call_backend b (outcomes b)).filter isObj

/-- Result of a `.../all` route handler: the `success`, entity list,
`backend_sources` and `places` fields of the response dict (the remaining
fields `total_*` and `message` are derived from these). -/
structure UnifiedResp where
  success : Bool
  items : List JVal
  backend_sources : List JVal
  places : List JVal

/-- Python `for ... in result[field]` requires a JSON array. Anything else
makes the handler raise (`TypeError`), modelled as `Except.error`. -/
def asArr : JVal → Except Unit (List JVal)
  | .arr xs => .ok xs
  | _ => .error ()

/-- Entity tagging inside the merge loops: `device["backend_name"] = ...;
device["place_location"] = ...`. Assignment on a non-dict raises
(`TypeError`), modelled as `Except.error`. -/
def tagEntity (e bn pl : JVal) : Except Unit JVal :=
  match e with
  | .obj kvs => .ok (jset (jset (.obj kvs) "backend_name" bn) "place_location" pl)
  | _ => .error ()

/-- Tag every entity of one succeeding result, in order. -/
def tagAll (bn pl : JVal) : List JVal → Except Unit (List JVal)
  | [] => .ok []
  | e :: rest =>
      match tagEntity e bn pl with
      | .error e0 => .error e0
      | .ok t =>
          match tagAll bn pl rest with
          | .error e0 => .error e0
          | .ok ts => .ok (t :: ts)

/-- Guard of the merge loops: `result.get("success") and field in result`. -/
def selectedRes (field : String) (r : JVal) : Bool :=
  truthyOpt (jget r "success") && (jget r field).isSome

/-- Shared merge loop of `get_all_devices_unified` (field `"devices"`) and
`get_all_attendance_unified` (field `"data"`): for each selected result,
append `result.get("_backend_name", "Unknown")` to `backend_sources`, append
the place to `places` when absent, and append every entity of
`result[field]` tagged with `backend_name`/`place_location`. -/
def mergeLoop (field : String) :
    List JVal → List JVal → List JVal → List JVal →
    Except Unit (List JVal × List JVal × List JVal)
  | [], acc, srcs, pls => .ok (acc, srcs, pls)
  | r :: rest, acc, srcs, pls =>
      if selectedRes field r then
        let bn := jgetD r "_backend_name" (.str "Unknown")
        let pl := jgetD r "_place_location" (.str "Unknown")
        match asArr (jgetD r field .null) with
        | .error e0 => .error e0
        | .ok items =>
            match tagAll bn pl items with
            | .error e0 => .error e0
            | .ok tagged =>
                mergeLoop field rest (acc ++ tagged) (srcs ++ [bn])
                  (if jmem pl pls then pls else pls ++ [pl])
      else
        mergeLoop field rest acc srcs pls

/-- Shared body of the two entity-merging fan-out handlers. The response
always carries `"success": True` (the handler returns the literal
regardless of how many backends contributed). -/
def unifiedAll (field : String) (backends : List Backend)
    (outcomes : Backend → UpstreamOutcome) : Except Unit UnifiedResp :=
  match mergeLoop field (call_all_backends backends outcomes) [] [] [] with
  | .error e0 => .error e0
  | .ok (items, srcs, pls) => .ok ⟨true, items, srcs, pls⟩

/-- Route handler `GET /devices/all` (`get_all_devices_unified`): fan out
`/devices`, merge the `devices` arrays of the succeeding results. -/
def get_all_devices_unified (backends : List Backend)
    (outcomes : Backend → UpstreamOutcome) : Except Unit UnifiedResp :=
  unifiedAll "devices" backends outcomes

/-- Route handler `GET /attendance/all` (`get_all_attendance_unified`): fan
out `/attendance/all`, merge the `data` arrays of the succeeding results.
The query parameters are merely forwarded to the backends and are absorbed
into the `outcomes` function. -/
def get_all_attendance_unified (backends : List Backend)
    (outcomes : Backend → UpstreamOutcome) : Except Unit UnifiedResp :=
  unifiedAll "data" backends outcomes

/-- A classified per-target failure: any non-200 HTTP status (401, 403, 5xx,
generic), a timeout, or a connection error — exactly the outcomes that
`call_backend` converts into an `errObj` dictionary. -/
def classifiedFailure : UpstreamOutcome → Bool
  | .http status _ => status != 200
  | .timeout => true
  | .connectionError => true

/-- A target that succeeds for a fan-out over `field`: HTTP 200 with a dict
body that is truthy at `"success"` and carries `field` as an array of
dicts — the shape the upstream contract promises (`{success, devices:[...]}`
etc.). -/
def successOutcome (field : String) : UpstreamOutcome → Bool
  | .http status body =>
      status == 200 &&
      (match body with
       | .obj kvs =>
           truthyOpt (jlookup kvs "success") &&
           (match jlookup kvs field with
            | some (.arr items) => items.all isObj
            | _ => false)
       | _ => false)
  | _ => false

/-- The entity array inside a result (`result[field]` when it is an array). -/
def resItems (field : String) (r : JVal) : List JVal :=
  match jget r field with
  | some (.arr xs) => xs
  | _ => []

/-- The tagging applied by the merge loops to each entity. -/
def tagMerged (bn pl e : JVal) : JVal :=
  jset (jset e "backend_name" bn) "place_location" pl

/-- Entities contributed by a list of per-target results: for each selected
result, its entity array tagged with that result's backend identity. -/
def mergedOfRes (field : String) : List JVal → List JVal
  | [] => []
  | r :: rest =>
      (if selectedRes field r then
        (resItems field r).map
          (tagMerged (jgetD r "_backend_name" (.str "Unknown"))
            (jgetD r "_place_location" (.str "Unknown")))
      else []) ++ mergedOfRes field rest

/-- Backend-source names contributed by a list of per-target results. -/
def sourcesOfRes (field : String) : List JVal → List JVal
  | [] => []
  | r :: rest =>
      (if selectedRes field r then [jgetD r "_backend_name" (.str "Unknown")]
       else []) ++ sourcesOfRes field rest

/-- Expected merged entity list over the registry: each succeeding backend
contributes its body's entity array, every entity tagged with that backend's
name and location. -/
def mergedOfBackends (field : String) (outcomes : Backend → UpstreamOutcome) :
    List Backend → List JVal
  | [] => []
  | b :: bs =>
      (if successOutcome field (outcomes b) then
        (resItems field (call_backend b (outcomes b))).map
          (tagMerged (.str b.name) (.str b.location))
      else []) ++ mergedOfBackends field outcomes bs

/-- Abbreviation for the per-claim well-formedness hypothesis: every target
either succeeds with a conforming body or fails in a classified way. -/
def eachClassified (field : String) (backends : List Backend)
    (outcomes : Backend → UpstreamOutcome) : Prop :=
  ∀ b ∈ backends, successOutcome field (outcomes b) = true ∨
    classifiedFailure (outcomes b) = true

/-- Concrete three-target registry for the C1 witness. -/
def c1_backends : List Backend :=
  [⟨"Place_A", "http://a:8000", "Site A", 30⟩,
   ⟨"Place_B", "http://b:8000", "Site B", 30⟩,
   ⟨"Place_C", "http://c:8000", "Site C", 30⟩]

/-- Concrete /devices outcomes for the C1 witness: Place_B times out, the
others return conforming 200 bodies. -/
def c1_dev_oc : Backend → UpstreamOutcome := fun b =>
  if b.name = "Place_B" then .timeout
  else .http 200 (.obj [("success", .bool true),
    ("devices", .arr [.obj [("device_name", .str ("dev-" ++ b.name))]])])

/-- Concrete /attendance/all outcomes for the C1 witness: Place_B returns a
500, the others return conforming 200 bodies. -/
def c1_att_oc : Backend → UpstreamOutcome := fun b =>
  if b.name = "Place_B" then .http 500 .null
  else .http 200 (.obj [("success", .bool true),
    ("data", .arr [.obj [("user_name", .str "u1")]])])

/-- Concrete backend for the C7 counterexample and witness. -/
def c7_bk : Backend := ⟨"Place_X", "http://x:8000", "Site X", 30⟩

/-- Concrete outcomes for the C7 witness: a single backend returning one
device. -/
def c7_oc : Backend → UpstreamOutcome := fun _ =>
  .http 200 (.obj [("success", .bool true),
    ("devices", .arr [.obj [("device_name", .str "dev")]])])

/-- First (and only) entity of the merged C7 witness response. -/
def c7ent : JVal :=
  .obj [("device_name", .str "dev"), ("backend_name", .str "Place_X"),
        ("place_location", .str "Site X")]

mutual

/-- Python `str()` of a JSON value as interpolated by an f-string:
identity on strings, `True`/`False`/`None` for booleans and null, decimal
for integers, `repr`-style rendering for containers. -/
def pyStr : JVal → String
  | .null => "None"
  | .bool b => if b then "True" else "False"
  | .num n => toString n
  | .str s => s
  | .arr xs => "[" ++ String.intercalate ", " (pyReprList xs) ++ "]"
  | .obj kvs => "\x7b" ++ String.intercalate ", " (pyReprKVList kvs) ++ "\x7d"

/-- Python `repr()` of each element of a list (component of `pyStr`). -/
def pyReprList : List JVal → List String
  | [] => []
  | x :: xs => pyReprOne x :: pyReprList xs

/-- Python `repr()` of a JSON value: like `str()` but quoting strings. -/
def pyReprOne : JVal → String
  | .str s => "'" ++ s ++ "'"
  | .null => "None"
  | .bool b => if b then "True" else "False"
  | .num n => toString n
  | .arr xs => "[" ++ String.intercalate ", " (pyReprList xs) ++ "]"
  | .obj kvs => "\x7b" ++ String.intercalate ", " (pyReprKVList kvs) ++ "\x7d"

/-- Python `repr()` of dict items (component of `pyStr`). -/
def pyReprKVList : List (String × JVal) → List String
  | [] => []
  | (k, v) :: kvs => ("'" ++ k ++ "': " ++ pyReprOne v) :: pyReprKVList kvs

end

/-- The deduplication key of `get_all_users_unified`:
`user_key = f"{user.get('name', '')}-{user.get('userid', '')}"`. -/
def userKey (u : JVal) : String :=
  pyStr (jgetD u "name" (.str "")) ++ "-" ++ pyStr (jgetD u "userid" (.str ""))

/-- Inner loop of `get_all_users_unified` over one result's `users` array:
compute the key; skip the user when the key was already seen; otherwise
record the key, tag the user with `backend_name`/`place_location`, and
append it. A non-dict user raises (`user.get` fails), modelled as
`Except.error`. -/
def dedupTag (bn pl : JVal) :
    List JVal → List JVal → List String → Except Unit (List JVal × List String)
  | [], acc, seen => .ok (acc, seen)
  | u :: us, acc, seen =>
      match u with
      | .obj kvs =>
          let key := userKey (.obj kvs)
          if key ∈ seen then dedupTag bn pl us acc seen
          else dedupTag bn pl us (acc ++ [tagMerged bn pl (.obj kvs)]) (seen ++ [key])
      | _ => .error ()

/-- Outer loop of `get_all_users_unified` over the fan-out results, with the
same selection guard as the other merges plus the shared `user_set`
(`seen`) threaded through. -/
def usersLoop :
    List JVal → List JVal → List JVal → List JVal → List String →
    Except Unit (List JVal × List JVal × List JVal)
  | [], acc, srcs, pls, _ => .ok (acc, srcs, pls)
  | r :: rest, acc, srcs, pls, seen =>
      if selectedRes "users" r then
        let bn := jgetD r "_backend_name" (.str "Unknown")
        let pl := jgetD r "_place_location" (.str "Unknown")
        match asArr (jgetD r "users" .null) with
        | .error e0 => .error e0
        | .ok items =>
            match dedupTag bn pl items acc seen with
            | .error e0 => .error e0
            | .ok (acc2, seen2) =>
                usersLoop rest acc2 (srcs ++ [bn])
                  (if jmem pl pls then pls else pls ++ [pl]) seen2
      else usersLoop rest acc srcs pls seen

/-- Route handler `GET /users/all` (`get_all_users_unified`,
`unified_gateway.py` lines 510-545): fan out `/users/all` and merge with
first-occurrence deduplication on the concatenated key. -/
def get_all_users_unified (backends : List Backend)
    (outcomes : Backend → UpstreamOutcome) : Except Unit UnifiedResp :=
  match usersLoop (call_all_backends backends outcomes) [] [] [] [] with
  | .error e0 => .error e0
  | .ok (users, srcs, pls) => .ok ⟨true, users, srcs, pls⟩

/-- Does the user dict carry exactly this (name, userid) pair of strings? -/
def hasNameUserid (u : JVal) (n i : String) : Bool :=
  (match jget u "name" with
   | some (.str s) => s == n
   | _ => false) &&
  (match jget u "userid" with
   | some (.str s) => s == i
   | _ => false)

/-- First user of the C10 counterexample input: pair ("a-b", "c"). -/
def c10_u1 : JVal := .obj [("name", .str "a-b"), ("userid", .str "c")]

/-- Second user of the C10 counterexample input: pair ("a", "b-c"). -/
def c10_u2 : JVal := .obj [("name", .str "a"), ("userid", .str "b-c")]

/-- Two-target registry for C10. -/
def c10_backends : List Backend :=
  [⟨"P1", "http://p1:8000", "L1", 30⟩, ⟨"P2", "http://p2:8000", "L2", 30⟩]

/-- Outcomes for C10: the first target reports the ("a-b","c") user, the
second the distinct ("a","b-c") user. -/
def c10_oc : Backend → UpstreamOutcome := fun b =>
  if b.name = "P1" then
    .http 200 (.obj [("success", .bool true), ("users", .arr [c10_u1])])
  else
    .http 200 (.obj [("success", .bool true), ("users", .arr [c10_u2])])

/-- The flattened untagged user stream of a result list, each user paired
with its result's backend name and place location, in fan-out order. -/
def usersStreamRes : List JVal → List (JVal × JVal × JVal)
  | [] => []
  | r :: rest =>
      (if selectedRes "users" r then
        (resItems "users" r).map
          (fun u => (u, jgetD r "_backend_name" (.str "Unknown"),
            jgetD r "_place_location" (.str "Unknown")))
      else []) ++ usersStreamRes rest

/-- The user stream of a whole fan-out. -/
def usersStream (backends : List Backend)
    (outcomes : Backend → UpstreamOutcome) : List (JVal × JVal × JVal) :=
  usersStreamRes (call_all_backends backends outcomes)

/-- Reference form of the deduplicating merge: walk the stream, skip users
whose key is already seen, tag and keep first occurrences; returns the kept
list and the final seen-key set. -/
def dedupStream : List (JVal × JVal × JVal) → List String → List JVal × List String
  | [], seen => ([], seen)
  | (u, bn, pl) :: rest, seen =>
      if userKey u ∈ seen then dedupStream rest seen
      else
        let out := dedupStream rest (seen ++ [userKey u])
        (tagMerged bn pl u :: out.1, out.2)

/-- C8 counterexample registry: three targets. -/
def c8x_backends : List Backend :=
  [⟨"B1", "http://b1:8000", "LB1", 30⟩, ⟨"B2", "http://b2:8000", "LB2", 30⟩,
   ⟨"B3", "http://b3:8000", "LB3", 30⟩]

/-- C8 counterexample outcomes: B1 reports the pair ("a-b","c"); B2 and B3
each report the identical pair ("a","b-c"), whose key collides with B1's. -/
def c8x_oc : Backend → UpstreamOutcome := fun b =>
  if b.name = "B1" then
    .http 200 (.obj [("success", .bool true),
      ("users", .arr [.obj [("name", .str "a-b"), ("userid", .str "c")]])])
  else
    .http 200 (.obj [("success", .bool true),
      ("users", .arr [.obj [("name", .str "a"), ("userid", .str "b-c")]])])

/-- C8 witness registry: two targets that both report the pair
("alice","7"). -/
def c8_backends : List Backend :=
  [⟨"W1", "http://w1:8000", "LW1", 30⟩, ⟨"W2", "http://w2:8000", "LW2", 30⟩]

/-- C8 witness outcomes. -/
def c8_oc : Backend → UpstreamOutcome := fun _ =>
  .http 200 (.obj [("success", .bool true),
    ("users", .arr [.obj [("name", .str "alice"), ("userid", .str "7")]])])

/-- Rate-limiting configuration (`SecurityConfig`): threshold
`rate_limit_requests` (env `RATE_LIMIT_REQUESTS`, default 60) and window
`rate_limit_window` seconds (env `RATE_LIMIT_WINDOW`, default 60). -/
structure RLConfig where
  rate_limit_requests : Nat
  rate_limit_window : ℚ

/-- Per-client mutable rate-limit state: the `rate_limit_storage[ip]`
timestamp list (an absent entry behaves exactly like `[]` and is modelled
so) and the optional `blocked_ips_cache[ip]` expiry instant. Times are
`time.time()` values, modelled as rationals. -/
structure ClientState where
  timestamps : List ℚ
  blockedUntil : Option ℚ
deriving DecidableEq

/-- The prune-count-append part of `check_rate_limit` (`security.py` lines
277-295), reached when the client is not currently blocked: drop timestamps
`≤ now − window`, then either set a 300-second block (when the remaining
count reaches the threshold) and reject, or append `now` and accept. -/
def check_rate_limit_core (cfg : RLConfig) (ts : List ℚ) (now : ℚ) :
    Bool × ClientState :=
  let window_start := now - cfg.rate_limit_window
  let pruned := ts.filter (fun t => window_start < t)
  if cfg.rate_limit_requests ≤ pruned.length then
    (false, ⟨pruned, some (now + 300)⟩)
  else
    (true, ⟨pruned ++ [now], none⟩)

/-- `check_rate_limit` (`security.py` lines 265-295) for one client: if a
block exists and has not expired, reject immediately leaving all state
untouched; otherwise delete any expired block and run the core. Returns
(accepted?, new per-client state). -/
def check_rate_limit (cfg : RLConfig) (s : ClientState) (now : ℚ) :
    Bool × ClientState :=
  match s.blockedUntil with
  | some b =>
      if now < b then (false, s)
      else check_rate_limit_core cfg s.timestamps now
  | none => check_rate_limit_core cfg s.timestamps now

/-- The middleware's reaction to the rate-limit check (`security.py` lines
352-357): a rejected check raises HTTP 429. -/
def rate_limit_status (cfg : RLConfig) (s : ClientState) (now : ℚ) :
    Option Nat × ClientState :=
  let r := check_rate_limit cfg s now
  (if r.1 then none else some 429, r.2)

/-- Is the client blocked at `now` (`client_ip in blocked_ips_cache and
now < blocked_ips_cache[client_ip]`)? -/
def isBlocked (bu : Option ℚ) (now : ℚ) : Bool :=
  match bu with
  | some b => now < b
  | none => false

/-- Does `pat` occur as a prefix of `cs`? -/
def startsWithChars : List Char → List Char → Bool
  | _, [] => true
  | [], _ :: _ => false
  | c :: cs, p :: ps => c == p && startsWithChars cs ps

/-- Python `re.search` of a fixed literal pattern: does `pat` occur anywhere
in the text? -/
def containsSeq (pat : List Char) : List Char → Bool
  | [] => startsWithChars [] pat
  | c :: rest => startsWithChars (c :: rest) pat || containsSeq pat rest

/-- Match helper for `pat1.*pat2`-shaped regexes: from the current position,
either `pat` matches here, or consume one non-newline character (regex `.`
does not match a newline) and continue. -/
def gapThen (pat : List Char) : List Char → Bool
  | [] => startsWithChars [] pat
  | c :: rest => startsWithChars (c :: rest) pat || (!(c == '\n') && gapThen pat rest)

/-- Drop a matched literal prefix, or fail. -/
def afterSeq : List Char → List Char → Option (List Char)
  | cs, [] => some cs
  | [], _ :: _ => none
  | c :: cs, p :: ps => if c == p then afterSeq cs ps else none

/-- Python `re.search(pat1 + ".*" + pat2, text)` (also covering the
non-greedy `.*?`, which has the same boolean semantics). -/
def matchSeqGapSeq (pat1 pat2 : List Char) : List Char → Bool
  | [] =>
      (match afterSeq [] pat1 with
       | some rest => gapThen pat2 rest
       | none => false)
  | c :: cs =>
      (match afterSeq (c :: cs) pat1 with
       | some rest => gapThen pat2 rest
       | none => false) || matchSeqGapSeq pat1 pat2 cs

/-- Python regex `\s` character class (space, tab, newline and friends). -/
def isPySpace (c : Char) : Bool :=
  c == ' ' || c == '\t' || c == '\n' || c == '\r' || c == '\x0b' || c == '\x0c'

/-- Match helper for `\s+pat`: at least one whitespace character, then
`pat`. -/
def spacesThen (pat : List Char) : List Char → Bool
  | [] => false
  | c :: rest => isPySpace c && (startsWithChars rest pat || spacesThen pat rest)

/-- Python `re.search(pat1 + "\\s+" + pat2, text)`. -/
def matchSeqSpacesSeq (pat1 pat2 : List Char) : List Char → Bool
  | [] => false
  | c :: cs =>
      (match afterSeq (c :: cs) pat1 with
       | some rest => spacesThen pat2 rest
       | none => false) || matchSeqSpacesSeq pat1 pat2 cs

/-- Python `str.lower()` (ASCII case folding suffices for the fixed
patterns). -/
def lowerStr (s : String) : List Char := s.toList.map Char.toLower

/-- Do the `SecurityConfig.blocked_patterns` regexes hit the (lowered)
text? In order: path traversal `(\.\./|\.\.\\)`, XSS `<script.*?>`, SQL
injection `union.*select` and `drop\s+table`, code execution `exec\(`. -/
def blocked_patterns_hit (cs : List Char) : Bool :=
  containsSeq ['.', '.', '/'] cs ||
  containsSeq ['.', '.', '\\'] cs ||
  matchSeqGapSeq ("<script".toList) ['>'] cs ||
  matchSeqGapSeq ("union".toList) ("select".toList) cs ||
  matchSeqSpacesSeq ("drop".toList) ("table".toList) cs ||
  containsSeq ("exec(".toList) cs

/-- `is_safe_request` (`security.py` lines 206-212): lower the request text
and search each blocked pattern (the extra `re.IGNORECASE` is redundant on
the lowered text); safe iff no pattern matches. -/
def is_safe_request (request_data : String) : Bool :=
  !(blocked_patterns_hit (lowerStr request_data))

/-- Outcome of `await request.body()`: the decoded body text, or a read
failure (the decode with `errors='ignore'` itself cannot fail). -/
inductive BodyReadResult where
  | ok (body : String)
  | failure
deriving DecidableEq

/-- An exception inside the middleware's content-validation `try` block:
the `HTTPException(400)` raised for a malicious body, or the exception of a
failed body read. -/
inductive MwException where
  | httpException (status : Nat)
  | readError
deriving DecidableEq

/-- The body of the content-validation `try` block (`security.py` lines
370-377): read the body (may raise), and if it is non-empty and unsafe,
raise `HTTPException(400)`. -/
def contentScanInner (r : BodyReadResult) : Except MwException Unit :=
  match r with
  | .failure => .error .readError
  | .ok body =>
      if body != "" && !(is_safe_request body) then
        .error (.httpException 400)
      else .ok ()

/-- The complete content-validation step of `security_middleware`
(`security.py` lines 368-379): for POST/PUT/PATCH run the `try` block; the
attached handler is `except Exception: pass`, and since FastAPI's
`HTTPException` is an `Exception`, BOTH the body-read failure AND the
`HTTPException(400)` raised for a malicious body are swallowed — the step
never aborts the request (`none` = fall through to the route handler). -/
def contentScanStep (method : String) (r : BodyReadResult) : Option Nat :=
  if method == "POST" || method == "PUT" || method == "PATCH" then
    match contentScanInner r with
    | .ok _ => none
    | .error _ => none
  else none

/-- What the spec prescribes for the step: abort with 400 exactly when the
inner block raises `HTTPException(400)` (pass-through only on a read
failure). Used to exhibit the divergence. -/
def contentScanStepSpec (method : String) (r : BodyReadResult) : Option Nat :=
  if method == "POST" || method == "PUT" || method == "PATCH" then
    match contentScanInner r with
    | .ok _ => none
    | .error (.httpException s) => some s
    | .error .readError => none
  else none

/-- Parse one decimal octet (0-255, no leading zeros — the stricter form
`ipaddress` enforces). -/
def parseOctet (s : String) : Option Nat :=
  let cs := s.toList
  if cs = [] then none
  else if !(cs.all Char.isDigit) then none
  else if cs.length > 1 && cs.headD '0' == '0' then none
  else
    let n := cs.foldl (fun acc c => acc * 10 + (c.toNat - 48)) 0
    if n ≤ 255 then some n else none

/-- Parse a dotted-quad IPv4 address, as `ipaddress.ip_address` does for
IPv4 strings; anything else (including IPv6, which is not modelled) is a
parse failure, which the source treats as `ValueError`. -/
def parseIPv4 (s : String) : Option Nat :=
  match (s.splitOn ".").map parseOctet with
  | [some a, some b, some c, some d] => some (((a * 256 + b) * 256 + c) * 256 + d)
  | _ => none

/-- Parse `addr/prefixlen` CIDR notation (`ipaddress.ip_network` with
`strict=False`, so host bits are irrelevant — membership only compares the
top `prefixlen` bits). -/
def parseCIDR (s : String) : Option (Nat × Nat) :=
  match s.splitOn "/" with
  | [addr, plen] =>
      (match parseIPv4 addr, parseOctet plen with
       | some a, some k => if k ≤ 32 then some (a, k) else none
       | _, _ => none)
  | _ => none

/-- Is address `c` inside the network `net/k` (top `k` bits equal)? -/
def inNetwork (c net k : Nat) : Bool :=
  c / 2 ^ (32 - k) == net / 2 ^ (32 - k)

/-- `is_ip_allowed` (`security.py` lines 214-241): empty allow-list →
allowed; exact string match → allowed; else parse the client address (a
parse failure returns `False`) and scan the entries, CIDR entries by
network membership and plain entries by address equality, skipping
unparseable entries (`ValueError` → `continue`). -/
def is_ip_allowed (allowed_ips : List String) (client_ip : String) : Bool :=
  if allowed_ips.isEmpty then true
  else if client_ip ∈ allowed_ips then true
  else
    match parseIPv4 client_ip with
    | none => false
    | some c =>
        allowed_ips.any (fun a =>
          if (a.toList.contains '/') then
            match parseCIDR a with
            | some (net, k) => inNetwork c net k
            | none => false
          else
            match parseIPv4 a with
            | some x => x == c
            | none => false)

/-- The middleware's IP gate (`security.py` lines 344-350): the check runs
only `if security_config.allowed_ips` is non-empty, and a disallowed
address raises HTTP 403. -/
def ip_gate_status (allowed_ips : List String) (client_ip : String) : Option Nat :=
  if !allowed_ips.isEmpty && !(is_ip_allowed allowed_ips client_ip) then some 403
  else none

/-- A JWT as seen by the verifier, with PyJWT's HMAC signing idealized: a
token is either a payload correctly signed under some secret (forgeable
only by a holder of that secret), or a malformed string that decodes to
nothing. Timestamps are integer Unix seconds, as PyJWT serializes
`datetime` claims. -/
inductive JwtToken where
  | signed (payload : List (String × JVal)) (secret : String)
  | malformed (raw : String)

/-- `create_jwt_token` (`security.py` lines 185-192): update the caller's
payload dict with `exp = now + jwt_expire_hours hours`, `iat = now`,
`iss = "BiometricFlow-ZK"` (overwriting any claims of those names), and
sign it with the configured secret. -/
def create_jwt_token (secret : String) (jwt_expire_hours : Int) (now : Int)
    (payload : List (String × JVal)) : JwtToken :=
  .signed
    (jsetList (jsetList (jsetList payload
      "exp" (.num (now + 3600 * jwt_expire_hours)))
      "iat" (.num now))
      "iss" (.str "BiometricFlow-ZK"))
    secret

/-- `verify_jwt_token` (`security.py` lines 194-204): `jwt.decode` with the
configured secret. A malformed token or a signature under a different
secret raises `InvalidTokenError`; a present integer `exp` claim with
`exp < now` raises `ExpiredSignatureError`; a non-integer `exp` also fails
decoding. Every such exception is caught and mapped to `None`; otherwise
the embedded payload is returned. The function is total: it never
propagates an exception to its caller. -/
def verify_jwt_token (secret : String) (now : Int) (tok : JwtToken) :
    Option (List (String × JVal)) :=
  match tok with
  | .malformed _ => none
  | .signed payload s =>
      if s != secret then none
      else
        match jlookup payload "exp" with
        | none => some payload
        | some (.num e) => if e < now then none else some payload
        | some _ => none

/-- The full payload embedded by `create_jwt_token`. -/
def jwtFullPayload (jwt_expire_hours : Int) (now : Int)
    (payload : List (String × JVal)) : List (String × JVal) :=
  jsetList (jsetList (jsetList payload
    "exp" (.num (now + 3600 * jwt_expire_hours)))
    "iat" (.num now))
    "iss" (.str "BiometricFlow-ZK")

theorem jlookup_jsetList_same (kvs : List (String × JVal)) (k : String) (v : JVal) :
    jlookup (jsetList kvs k v) k = some v := by
  induction kvs with
  | nil => simp [jsetList, jlookup]
  | cons hd tl ih =>
      obtain ⟨k0, v0⟩ := hd
      by_cases h : k0 = k
      · simp [jsetList, h, jlookup]
      · simp [jsetList, h, jlookup, ih]

theorem jlookup_jsetList_ne (kvs : List (String × JVal)) (k k0 : String) (v : JVal)
    (h : k0 ≠ k) : jlookup (jsetList kvs k v) k0 = jlookup kvs k0 := by
  have hk : k ≠ k0 := Ne.symm h
  induction kvs with
  | nil => simp [jsetList, jlookup, hk]
  | cons hd tl ih =>
      obtain ⟨k1, v1⟩ := hd
      by_cases h1 : k1 = k
      · subst h1
        simp [jsetList, jlookup, hk]
      · by_cases h2 : k1 = k0 <;> simp [jsetList, h1, jlookup, h2, ih, h]

theorem jget_jset_same (kvs : List (String × JVal)) (k : String) (v : JVal) :
    jget (jset (.obj kvs) k v) k = some v := by
  simp [jset, jget, jlookup_jsetList_same]

theorem jget_jset_ne (kvs : List (String × JVal)) (k k0 : String) (v : JVal)
    (h : k0 ≠ k) : jget (jset (.obj kvs) k v) k0 = jget (.obj kvs) k0 := by
  simp [jset, jget, jlookup_jsetList_ne _ _ _ _ h]

theorem isObj_jset (kvs : List (String × JVal)) (k : String) (v : JVal) :
    isObj (jset (.obj kvs) k v) = true := by
  simp [jset, isObj]

theorem jget_jset_ne' (v : JVal) (k k0 : String) (x : JVal) (h : k0 ≠ k) :
    jget (jset v k x) k0 = jget v k0 := by
  cases v <;> simp [jset, jget, jlookup_jsetList_ne _ _ _ _ h]

theorem jget_jset_same' (v : JVal) (k : String) (x : JVal) (h : isObj v = true) :
    jget (jset v k x) k = some x := by
  cases v <;> simp_all [isObj, jset, jget, jlookup_jsetList_same]

theorem isObj_jset' (v : JVal) (k : String) (x : JVal) (h : isObj v = true) :
    isObj (jset v k x) = true := by
  cases v <;> simp_all [isObj, jset]

theorem isObj_tagSuccess (b : Backend) (v : JVal) (h : isObj v = true) :
    isObj (tagSuccess b v) = true := by
  unfold tagSuccess
  exact isObj_jset' _ _ _ (isObj_jset' _ _ _ (isObj_jset' _ _ _ (isObj_jset' _ _ _ h)))

theorem tagSuccess_jget_name (b : Backend) (v : JVal) (h : isObj v = true) :
    jget (tagSuccess b v) "_backend_name" = some (.str b.name) := by
  unfold tagSuccess
  rw [jget_jset_ne' _ _ _ _ (by decide), jget_jset_ne' _ _ _ _ (by decide),
    jget_jset_ne' _ _ _ _ (by decide), jget_jset_same' _ _ _ h]

theorem tagSuccess_jget_url (b : Backend) (v : JVal) (h : isObj v = true) :
    jget (tagSuccess b v) "_backend_url" = some (.str b.url) := by
  unfold tagSuccess
  rw [jget_jset_ne' _ _ _ _ (by decide), jget_jset_ne' _ _ _ _ (by decide),
    jget_jset_same' _ _ _ (isObj_jset' _ _ _ h)]

theorem tagSuccess_jget_loc (b : Backend) (v : JVal) (h : isObj v = true) :
    jget (tagSuccess b v) "_place_location" = some (.str b.location) := by
  unfold tagSuccess
  rw [jget_jset_ne' _ _ _ _ (by decide),
    jget_jset_same' _ _ _ (isObj_jset' _ _ _ (isObj_jset' _ _ _ h))]

/-- Keys other than the four metadata keys are untouched by the 200-branch
tagging. -/
theorem tagSuccess_jget_other (b : Backend) (v : JVal) (k : String)
    (h1 : k ≠ "_backend_name") (h2 : k ≠ "_backend_url")
    (h3 : k ≠ "_place_location") (h4 : k ≠ "_response_time") :
    jget (tagSuccess b v) k = jget v k := by
  unfold tagSuccess
  rw [jget_jset_ne' _ _ _ _ h4, jget_jset_ne' _ _ _ _ h3,
    jget_jset_ne' _ _ _ _ h2, jget_jset_ne' _ _ _ _ h1]

/-- Every classified failure becomes an `errObj` dictionary. -/
theorem call_backend_fail (b : Backend) (o : UpstreamOutcome)
    (h : classifiedFailure o = true) :
    ∃ msg code, call_backend b o = errObj b msg code := by
  cases o with
  | http s body =>
      have hs : ¬ s = 200 := by simpa [classifiedFailure] using h
      simp only [call_backend, hs, if_false]
      split
      · exact ⟨_, _, rfl⟩
      · split
        · exact ⟨_, _, rfl⟩
        · split
          · exact ⟨_, _, rfl⟩
          · exact ⟨_, _, rfl⟩
  | timeout => exact ⟨_, _, rfl⟩
  | connectionError => exact ⟨_, _, rfl⟩

theorem selectedRes_errObj (field : String) (b : Backend) (msg code : String) :
    selectedRes field (errObj b msg code) = false := by
  simp [selectedRes, errObj, jget, jlookup, truthyOpt, truthy]

theorem isObj_errObj (b : Backend) (msg code : String) :
    isObj (errObj b msg code) = true := rfl

/-- On a succeeding outcome, `call_backend` returns the tagged body. -/
theorem call_backend_success (field : String) (b : Backend) (o : UpstreamOutcome)
    (h : successOutcome field o = true) :
    ∃ kvs, o = .http 200 (.obj kvs) ∧
      call_backend b o = tagSuccess b (.obj kvs) := by
  cases o with
  | http s body =>
      have hs : s = 200 := by
        by_contra hne
        simp [successOutcome, hne] at h
      subst hs
      cases body with
      | obj kvs => exact ⟨kvs, rfl, by simp [call_backend]⟩
      | null => simp [successOutcome] at h
      | bool b0 => simp [successOutcome] at h
      | num n => simp [successOutcome] at h
      | str s0 => simp [successOutcome] at h
      | arr xs => simp [successOutcome] at h
  | timeout => simp [successOutcome] at h
  | connectionError => simp [successOutcome] at h

/-- The result of a succeeding call keeps the body's `success` and `field`
entries and carries the backend tags; it is selected by the merge guard and
its entity array is the body's array of dicts. -/
theorem call_backend_success_facts (field : String) (b : Backend)
    (o : UpstreamOutcome)
    (hf1 : field ≠ "_backend_name") (hf2 : field ≠ "_backend_url")
    (hf3 : field ≠ "_place_location") (hf4 : field ≠ "_response_time")
    (h : successOutcome field o = true) :
    isObj (call_backend b o) = true ∧
    selectedRes field (call_backend b o) = true ∧
    (resItems field (call_backend b o)).all isObj = true ∧
    jgetD (call_backend b o) "_backend_name" (.str "Unknown") = .str b.name ∧
    jgetD (call_backend b o) "_place_location" (.str "Unknown") = .str b.location ∧
    (∃ items, jget (call_backend b o) field = some (.arr items) ∧
      items.all isObj = true) := by
  obtain ⟨kvs, ho, hcb⟩ := call_backend_success field b o h
  subst ho
  rw [hcb]
  have hobj : isObj (JVal.obj kvs) = true := rfl
  have hsucc : truthyOpt (jlookup kvs "success") = true := by
    simp [successOutcome] at h
    exact h.1
  have hfield : ∃ items, jlookup kvs field = some (.arr items) ∧ items.all isObj = true := by
    simp [successOutcome] at h
    rcases h with ⟨-, h2⟩
    cases hl : jlookup kvs field with
    | none => rw [hl] at h2; simp at h2
    | some v =>
        cases v with
        | arr items => exact ⟨items, rfl, by rw [hl] at h2; simpa using h2⟩
        | null => rw [hl] at h2; simp at h2
        | bool b0 => rw [hl] at h2; simp at h2
        | num n => rw [hl] at h2; simp at h2
        | str s0 => rw [hl] at h2; simp at h2
        | obj kvs0 => rw [hl] at h2; simp at h2
  obtain ⟨items, hitems, hall⟩ := hfield
  have hgs : jget (tagSuccess b (.obj kvs)) "success" = jlookup kvs "success" := by
    rw [tagSuccess_jget_other _ _ _ (by decide) (by decide) (by decide) (by decide)]
    rfl
  have hgf : jget (tagSuccess b (.obj kvs)) field = jlookup kvs field := by
    rw [tagSuccess_jget_other _ _ _ hf1 hf2 hf3 hf4]
    rfl
  refine ⟨isObj_tagSuccess _ _ hobj, ?_, ?_, ?_, ?_, ?_⟩
  · simp [selectedRes, hgs, hsucc, hgf, hitems]
  · simp [resItems, hgf, hitems, hall]
  · simp [jgetD, tagSuccess_jget_name _ _ hobj]
  · simp [jgetD, tagSuccess_jget_loc _ _ hobj]
  · exact ⟨items, by rw [hgf, hitems], hall⟩

/-- `tagAll` succeeds on an array of dicts and tags each entity. -/
theorem tagAll_ok (bn pl : JVal) (items : List JVal)
    (h : items.all isObj = true) :
    tagAll bn pl items = .ok (items.map (tagMerged bn pl)) := by
  induction items with
  | nil => rfl
  | cons e rest ih =>
      simp only [List.all_cons, Bool.and_eq_true] at h
      cases e <;> simp_all [tagAll, tagEntity, tagMerged, isObj, ih]

/-- Characterization of the shared merge loop on well-formed result lists:
it never raises and produces exactly the per-result contributions, appended
to the accumulators in order. -/
theorem mergeLoop_spec (field : String) (rs : List JVal)
    (hwf : ∀ r ∈ rs, selectedRes field r = true →
      ∃ items, jget r field = some (.arr items) ∧ items.all isObj = true) :
    ∀ acc srcs pls, ∃ pls',
      mergeLoop field rs acc srcs pls =
        .ok (acc ++ mergedOfRes field rs, srcs ++ sourcesOfRes field rs, pls') := by
  induction rs with
  | nil => intro acc srcs pls; exact ⟨pls, by simp [mergeLoop, mergedOfRes, sourcesOfRes]⟩
  | cons r rest ih =>
      intro acc srcs pls
      have hwfrest : ∀ r0 ∈ rest, selectedRes field r0 = true →
          ∃ items, jget r0 field = some (.arr items) ∧ items.all isObj = true :=
        fun r0 hr0 => hwf r0 (List.mem_cons_of_mem _ hr0)
      by_cases hsel : selectedRes field r = true
      · obtain ⟨items, hitems, hall⟩ := hwf r (List.mem_cons_self _ _) hsel
        have hres : resItems field r = items := by simp [resItems, hitems]
        have hD : jgetD r field .null = .arr items := by simp [jgetD, hitems]
        obtain ⟨pls', hrec⟩ := ih hwfrest
          (acc ++ (resItems field r).map
            (tagMerged (jgetD r "_backend_name" (.str "Unknown"))
              (jgetD r "_place_location" (.str "Unknown"))))
          (srcs ++ [jgetD r "_backend_name" (.str "Unknown")])
          (if jmem (jgetD r "_place_location" (.str "Unknown")) pls then pls
           else pls ++ [jgetD r "_place_location" (.str "Unknown")])
        refine ⟨pls', ?_⟩
        simp only [mergeLoop, hsel, if_true, hD, asArr, hres,
          tagAll_ok _ _ _ hall]
        simpa [mergedOfRes, sourcesOfRes, hsel, hres, List.append_assoc] using hrec
      · have hsel' : selectedRes field r = false := by
          cases hb : selectedRes field r
          · rfl
          · exact absurd hb hsel
        obtain ⟨pls', hrec⟩ := ih hwfrest acc srcs pls
        refine ⟨pls', ?_⟩
        simp only [mergeLoop, hsel', Bool.false_eq_true, if_false]
        simpa [mergedOfRes, sourcesOfRes, hsel'] using hrec

/-- A classified failure never satisfies the success shape. -/
theorem successOutcome_false_of_fail (field : String) (o : UpstreamOutcome)
    (h : classifiedFailure o = true) : successOutcome field o = false := by
  cases o with
  | http s body =>
      have hs : ¬ s = 200 := by simpa [classifiedFailure] using h
      simp [successOutcome, hs]
  | timeout => rfl
  | connectionError => rfl

/-- Under `eachClassified`, no result is discarded by the
`isinstance(result, dict)` filter of `call_all_backends`. -/
theorem call_all_backends_eq (field : String) (backends : List Backend)
    (outcomes : Backend → UpstreamOutcome)
    (hf1 : field ≠ "_backend_name") (hf2 : field ≠ "_backend_url")
    (hf3 : field ≠ "_place_location") (hf4 : field ≠ "_response_time")
    (hall : eachClassified field backends outcomes) :
    call_all_backends backends outcomes =
      backends.map (fun b => call_backend b (outcomes b)) := by
  unfold call_all_backends
  induction backends with
  | nil => rfl
  | cons b bs ih =>
      have hobj : isObj (call_backend b (outcomes b)) = true := by
        rcases hall b (List.mem_cons_self _ _) with hs | hfl
        · exact (call_backend_success_facts field b _ hf1 hf2 hf3 hf4 hs).1
        · obtain ⟨msg, code, hcb⟩ := call_backend_fail b _ hfl
          rw [hcb]; exact isObj_errObj b msg code
      have ihh := ih (fun b0 hb0 => hall b0 (List.mem_cons_of_mem _ hb0))
      simp only [List.map_cons, List.filter_cons, hobj, if_true]
      rw [ihh]

theorem mergedOfRes_backends (field : String) (backends : List Backend)
    (outcomes : Backend → UpstreamOutcome)
    (hf1 : field ≠ "_backend_name") (hf2 : field ≠ "_backend_url")
    (hf3 : field ≠ "_place_location") (hf4 : field ≠ "_response_time")
    (hall : eachClassified field backends outcomes) :
    mergedOfRes field (backends.map (fun b => call_backend b (outcomes b))) =
      mergedOfBackends field outcomes backends := by
  induction backends with
  | nil => rfl
  | cons b bs ih =>
      have ihh := ih (fun b0 hb0 => hall b0 (List.mem_cons_of_mem _ hb0))
      rcases hall b (List.mem_cons_self _ _) with hs | hfl
      · obtain ⟨-, hsel, -, hname, hloc, -⟩ :=
          call_backend_success_facts field b _ hf1 hf2 hf3 hf4 hs
        simp [mergedOfRes, mergedOfBackends, hsel, hs, hname, hloc, ihh]
      · obtain ⟨msg, code, hcb⟩ := call_backend_fail b _ hfl
        have hns := successOutcome_false_of_fail field _ hfl
        simp [mergedOfRes, mergedOfBackends, hcb, selectedRes_errObj, hns, ihh]

theorem sourcesOfRes_backends (field : String) (backends : List Backend)
    (outcomes : Backend → UpstreamOutcome)
    (hf1 : field ≠ "_backend_name") (hf2 : field ≠ "_backend_url")
    (hf3 : field ≠ "_place_location") (hf4 : field ≠ "_response_time")
    (hall : eachClassified field backends outcomes) :
    sourcesOfRes field (backends.map (fun b => call_backend b (outcomes b))) =
      (backends.filter (fun b => successOutcome field (outcomes b))).map
        (fun b => JVal.str b.name) := by
  induction backends with
  | nil => rfl
  | cons b bs ih =>
      have ihh := ih (fun b0 hb0 => hall b0 (List.mem_cons_of_mem _ hb0))
      rcases hall b (List.mem_cons_self _ _) with hs | hfl
      · obtain ⟨-, hsel, -, hname, -, -⟩ :=
          call_backend_success_facts field b _ hf1 hf2 hf3 hf4 hs
        simp [sourcesOfRes, List.filter_cons, hsel, hs, hname, ihh]
      · obtain ⟨msg, code, hcb⟩ := call_backend_fail b _ hfl
        have hns := successOutcome_false_of_fail field _ hfl
        simp [sourcesOfRes, List.filter_cons, hcb, selectedRes_errObj, hns, ihh]

/-- Full characterization of a fan-out merge under `eachClassified`: the
handler returns `success=true`, the merged entities of exactly the
succeeding targets, and their names as `backend_sources`. -/
theorem unifiedAll_spec (field : String) (backends : List Backend)
    (outcomes : Backend → UpstreamOutcome)
    (hf1 : field ≠ "_backend_name") (hf2 : field ≠ "_backend_url")
    (hf3 : field ≠ "_place_location") (hf4 : field ≠ "_response_time")
    (hall : eachClassified field backends outcomes) :
    ∃ pls, unifiedAll field backends outcomes =
      .ok ⟨true, mergedOfBackends field outcomes backends,
        (backends.filter (fun b => successOutcome field (outcomes b))).map
          (fun b => JVal.str b.name), pls⟩ := by
  have heq := call_all_backends_eq field backends outcomes hf1 hf2 hf3 hf4 hall
  have hwf : ∀ r ∈ backends.map (fun b => call_backend b (outcomes b)),
      selectedRes field r = true →
      ∃ items, jget r field = some (.arr items) ∧ items.all isObj = true := by
    intro r hr hselr
    obtain ⟨b, hb, rfl⟩ := List.mem_map.mp hr
    rcases hall b hb with hs | hfl
    · exact (call_backend_success_facts field b _ hf1 hf2 hf3 hf4 hs).2.2.2.2.2
    · obtain ⟨msg, code, hcb⟩ := call_backend_fail b _ hfl
      rw [hcb] at hselr
      rw [selectedRes_errObj] at hselr
      exact absurd hselr (by simp)
  obtain ⟨pls', hml⟩ := mergeLoop_spec field _ hwf [] [] []
  refine ⟨pls', ?_⟩
  unfold unifiedAll
  rw [heq, hml, List.nil_append, List.nil_append,
    mergedOfRes_backends field backends outcomes hf1 hf2 hf3 hf4 hall,
    sourcesOfRes_backends field backends outcomes hf1 hf2 hf3 hf4 hall]

/-- C1: for every fan-out request (GET /devices/all, GET /attendance/all)
over k registered backend targets of which exactly m (0<m<k) fail with a
classified failure, the gateway returns an HTTP-success response
(`success=true`, no exception) whose merged collection is exactly the tagged
entities of the succeeding targets and whose `backend_sources` list is
exactly the names of the succeeding targets, in registry order. -/
theorem claim_C1_fanout_partial_failure (backends : List Backend)
    (oc_dev oc_att : Backend → UpstreamOutcome)
    (hall_dev : eachClassified "devices" backends oc_dev)
    (hfail_dev : ∃ b ∈ backends, classifiedFailure (oc_dev b) = true)
    (hsucc_dev : ∃ b ∈ backends, successOutcome "devices" (oc_dev b) = true)
    (hall_att : eachClassified "data" backends oc_att)
    (hfail_att : ∃ b ∈ backends, classifiedFailure (oc_att b) = true)
    (hsucc_att : ∃ b ∈ backends, successOutcome "data" (oc_att b) = true) :
    (∃ pls, get_all_devices_unified backends oc_dev =
      .ok ⟨true, mergedOfBackends "devices" oc_dev backends,
        (backends.filter (fun b => successOutcome "devices" (oc_dev b))).map
          (fun b => JVal.str b.name), pls⟩) ∧
    (∃ pls, get_all_attendance_unified backends oc_att =
      .ok ⟨true, mergedOfBackends "data" oc_att backends,
        (backends.filter (fun b => successOutcome "data" (oc_att b))).map
          (fun b => JVal.str b.name), pls⟩) :=
  ⟨unifiedAll_spec "devices" backends oc_dev (by decide) (by decide) (by decide)
      (by decide) hall_dev,
   unifiedAll_spec "data" backends oc_att (by decide) (by decide) (by decide)
      (by decide) hall_att⟩

theorem claim_C1_fanout_partial_failure_witness :
    eachClassified "devices" c1_backends c1_dev_oc ∧
    (∃ b ∈ c1_backends, classifiedFailure (c1_dev_oc b) = true) ∧
    (∃ b ∈ c1_backends, successOutcome "devices" (c1_dev_oc b) = true) ∧
    eachClassified "data" c1_backends c1_att_oc ∧
    (∃ b ∈ c1_backends, classifiedFailure (c1_att_oc b) = true) ∧
    (∃ b ∈ c1_backends, successOutcome "data" (c1_att_oc b) = true) ∧
    (∃ pls, get_all_devices_unified c1_backends c1_dev_oc =
      .ok ⟨true, mergedOfBackends "devices" c1_dev_oc c1_backends,
        (c1_backends.filter (fun b => successOutcome "devices" (c1_dev_oc b))).map
          (fun b => JVal.str b.name), pls⟩) ∧
    (∃ pls, get_all_attendance_unified c1_backends c1_att_oc =
      .ok ⟨true, mergedOfBackends "data" c1_att_oc c1_backends,
        (c1_backends.filter (fun b => successOutcome "data" (c1_att_oc b))).map
          (fun b => JVal.str b.name), pls⟩) := by
  have h1 : eachClassified "devices" c1_backends c1_dev_oc := by
    unfold eachClassified; decide
  have h2 : ∃ b ∈ c1_backends, classifiedFailure (c1_dev_oc b) = true := by decide
  have h3 : ∃ b ∈ c1_backends, successOutcome "devices" (c1_dev_oc b) = true := by decide
  have h4 : eachClassified "data" c1_backends c1_att_oc := by
    unfold eachClassified; decide
  have h5 : ∃ b ∈ c1_backends, classifiedFailure (c1_att_oc b) = true := by decide
  have h6 : ∃ b ∈ c1_backends, successOutcome "data" (c1_att_oc b) = true := by decide
  obtain ⟨hd, ha⟩ :=
    claim_C1_fanout_partial_failure c1_backends c1_dev_oc c1_att_oc h1 h2 h3 h4 h5 h6
  exact ⟨h1, h2, h3, h4, h5, h6, hd, ha⟩

/-- Tagged entities carry both identity keys. -/
theorem tagEntity_tags (e bn pl t : JVal) (h : tagEntity e bn pl = .ok t) :
    jget t "backend_name" = some bn ∧ jget t "place_location" = some pl := by
  cases e with
  | obj kvs =>
      simp only [tagEntity, Except.ok.injEq] at h
      subst h
      constructor
      · rw [jget_jset_ne' _ _ _ _ (by decide)]
        exact jget_jset_same' _ _ _ rfl
      · exact jget_jset_same' _ _ _ (isObj_jset' _ _ _ rfl)
  | null => simp [tagEntity] at h
  | bool b0 => simp [tagEntity] at h
  | num n => simp [tagEntity] at h
  | str s0 => simp [tagEntity] at h
  | arr xs => simp [tagEntity] at h

/-- Every output of `tagAll` carries both identity keys. -/
theorem tagAll_mem_tags (bn pl : JVal) (items : List JVal) :
    ∀ ts, tagAll bn pl items = .ok ts →
    ∀ t ∈ ts, jget t "backend_name" = some bn ∧ jget t "place_location" = some pl := by
  induction items with
  | nil =>
      intro ts h
      simp only [tagAll, Except.ok.injEq] at h
      subst h
      intro t ht
      exact absurd ht (List.not_mem_nil t)
  | cons e rest ih =>
      intro ts h
      unfold tagAll at h
      cases he : tagEntity e bn pl with
      | error e0 => rw [he] at h; exact absurd h (by simp)
      | ok t0 =>
          rw [he] at h
          cases hr : tagAll bn pl rest with
          | error e0 => rw [hr] at h; exact absurd h (by simp)
          | ok ts0 =>
              rw [hr] at h
              simp only [Except.ok.injEq] at h
              subst h
              intro t ht
              rcases List.mem_cons.mp ht with rfl | hmem
              · exact tagEntity_tags e bn pl t he
              · exact ih ts0 hr t hmem

/-- Every entity the merge loop ever appends carries both identity keys. -/
theorem mergeLoop_tags (field : String) (rs : List JVal) :
    ∀ acc srcs pls out, mergeLoop field rs acc srcs pls = .ok out →
    ∀ e ∈ out.1, e ∈ acc ∨
      (∃ bn pl, jget e "backend_name" = some bn ∧ jget e "place_location" = some pl) := by
  induction rs with
  | nil =>
      intro acc srcs pls out h
      simp only [mergeLoop, Except.ok.injEq] at h
      subst h
      intro e he
      exact Or.inl he
  | cons r rest ih =>
      intro acc srcs pls out h
      unfold mergeLoop at h
      by_cases hsel : selectedRes field r = true
      · rw [hsel] at h
        simp only [if_true] at h
        split at h
        · exact absurd h (by simp)
        · rename_i items ha
          split at h
          · exact absurd h (by simp)
          · rename_i tagged ht
            intro e he
            rcases ih _ _ _ _ h e he with hacc | htag
            · rcases List.mem_append.mp hacc with h1 | h2
              · exact Or.inl h1
              · refine Or.inr ?_
                obtain ⟨hbn, hpl⟩ := tagAll_mem_tags _ _ items tagged ht e h2
                exact ⟨_, _, hbn, hpl⟩
            · exact Or.inr htag
      · have hsel' : selectedRes field r = false := by
          cases hb : selectedRes field r
          · rfl
          · exact absurd hb hsel
        rw [hsel'] at h
        simp only [Bool.false_eq_true, if_false] at h
        exact ih _ _ _ _ h

/-- Entities in any successful fan-out merge response carry both identity
keys. -/
theorem unifiedAll_entities_tagged (field : String) (backends : List Backend)
    (outcomes : Backend → UpstreamOutcome) (resp : UnifiedResp)
    (h : unifiedAll field backends outcomes = .ok resp) :
    ∀ e ∈ resp.items, ∃ bn pl,
      jget e "backend_name" = some bn ∧ jget e "place_location" = some pl := by
  unfold unifiedAll at h
  cases hml : mergeLoop field (call_all_backends backends outcomes) [] [] [] with
  | error e0 => rw [hml] at h; exact absurd h (by simp)
  | ok out =>
      rw [hml] at h
      obtain ⟨items, srcs, pls⟩ := out
      simp only [Except.ok.injEq] at h
      subst h
      intro e he
      rcases mergeLoop_tags field _ [] [] [] (items, srcs, pls) hml e he with habs | htag
      · exact absurd habs (List.not_mem_nil e)
      · exact htag

/-- C7 counterexample: `call_backend` classifies an HTTP 200 response as a
success, but when the 200 body is not a JSON object (here: a JSON array) it
is returned verbatim, with no `_backend_name`, `_backend_url` or
`_place_location` — so not every success classification carries the backend
identity, contrary to the claim. -/
theorem claim_C7_counterexample :
    call_backend c7_bk (.http 200 (.arr [])) = .arr [] ∧
    jget (call_backend c7_bk (.http 200 (.arr []))) "_backend_name" = none ∧
    jget (call_backend c7_bk (.http 200 (.arr []))) "_backend_url" = none ∧
    jget (call_backend c7_bk (.http 200 (.arr []))) "_place_location" = none :=
  ⟨rfl, rfl, rfl, rfl⟩

/-- C7 (amended): every entity placed into a merged collection by a fan-out
endpoint carries `backend_name` and `place_location`; every error
classification (auth-failed, forbidden, server-error, generic http-error,
timeout, connection-error) produced by `call_backend` carries the
originating backend's name, URL and location; and a success classification
carries them whenever the 200 body is a JSON object (non-object 200 bodies
are returned untagged and are excluded from fan-out merges by the
`isinstance(result, dict)` filter). -/
theorem claim_C7_backend_identity_amended :
    (∀ (backends : List Backend) (oc : Backend → UpstreamOutcome)
       (resp : UnifiedResp), get_all_devices_unified backends oc = .ok resp →
       ∀ e ∈ resp.items, ∃ bn pl,
         jget e "backend_name" = some bn ∧ jget e "place_location" = some pl) ∧
    (∀ (backends : List Backend) (oc : Backend → UpstreamOutcome)
       (resp : UnifiedResp), get_all_attendance_unified backends oc = .ok resp →
       ∀ e ∈ resp.items, ∃ bn pl,
         jget e "backend_name" = some bn ∧ jget e "place_location" = some pl) ∧
    (∀ (b : Backend) (o : UpstreamOutcome), classifiedFailure o = true →
       jget (call_backend b o) "_backend_name" = some (.str b.name) ∧
       jget (call_backend b o) "_backend_url" = some (.str b.url) ∧
       jget (call_backend b o) "_place_location" = some (.str b.location)) ∧
    (∀ (b : Backend) (kvs : List (String × JVal)),
       jget (call_backend b (.http 200 (.obj kvs))) "_backend_name" = some (.str b.name) ∧
       jget (call_backend b (.http 200 (.obj kvs))) "_backend_url" = some (.str b.url) ∧
       jget (call_backend b (.http 200 (.obj kvs))) "_place_location" = some (.str b.location)) := by
  refine ⟨?_, ?_, ?_, ?_⟩
  · exact fun backends oc resp h => unifiedAll_entities_tagged "devices" backends oc resp h
  · exact fun backends oc resp h => unifiedAll_entities_tagged "data" backends oc resp h
  · intro b o hcl
    obtain ⟨msg, code, hcb⟩ := call_backend_fail b o hcl
    rw [hcb]
    exact ⟨rfl, rfl, rfl⟩
  · intro b kvs
    have hcb : call_backend b (.http 200 (.obj kvs)) = tagSuccess b (.obj kvs) := by
      simp [call_backend]
    rw [hcb]
    exact ⟨tagSuccess_jget_name b _ rfl, tagSuccess_jget_url b _ rfl,
      tagSuccess_jget_loc b _ rfl⟩

theorem claim_C7_backend_identity_amended_witness :
    (∃ bn pl, jget c7ent "backend_name" = some bn ∧
      jget c7ent "place_location" = some pl) ∧
    (jget (call_backend c7_bk .timeout) "_backend_name" = some (.str "Place_X") ∧
     jget (call_backend c7_bk .timeout) "_backend_url" = some (.str "http://x:8000") ∧
     jget (call_backend c7_bk .timeout) "_place_location" = some (.str "Site X")) ∧
    (jget (call_backend c7_bk (.http 200 (.obj []))) "_backend_name" = some (.str "Place_X") ∧
     jget (call_backend c7_bk (.http 200 (.obj []))) "_backend_url" = some (.str "http://x:8000") ∧
     jget (call_backend c7_bk (.http 200 (.obj []))) "_place_location" = some (.str "Site X")) := by
  have hrun : get_all_devices_unified [c7_bk] c7_oc =
      .ok ⟨true, [c7ent], [.str "Place_X"], [.str "Site X"]⟩ := rfl
  refine ⟨?_, ?_, ?_⟩
  · exact claim_C7_backend_identity_amended.1 [c7_bk] c7_oc _ hrun c7ent
      (List.mem_singleton.mpr rfl)
  · exact claim_C7_backend_identity_amended.2.2.1 c7_bk .timeout rfl
  · exact claim_C7_backend_identity_amended.2.2.2 c7_bk []

/-- C10: the deduplication key `name + "-" + userid` of GET /users/all is
not injective: the distinct pairs ("a-b","c") and ("a","b-c") share the key
"a-b-c", and on a two-target input reporting one user each, the second
user — not a duplicate under the composite pair — is dropped: the unified
listing has a single entry, carrying pair ("a-b","c"), and no entry with
pair ("a","b-c"). -/
theorem claim_C10_dedup_key_collision :
    userKey c10_u1 = userKey c10_u2 ∧
    hasNameUserid c10_u1 "a" "b-c" = false ∧
    hasNameUserid c10_u2 "a" "b-c" = true ∧
    get_all_users_unified c10_backends c10_oc =
      .ok ⟨true,
        [.obj [("name", .str "a-b"), ("userid", .str "c"),
               ("backend_name", .str "P1"), ("place_location", .str "L1")]],
        [.str "P1", .str "P2"], [.str "L1", .str "L2"]⟩ ∧
    ([JVal.obj [("name", .str "a-b"), ("userid", .str "c"),
        ("backend_name", .str "P1"), ("place_location", .str "L1")]].countP
      (fun u => hasNameUserid u "a" "b-c")) = 0 :=
  ⟨rfl, rfl, rfl, rfl, rfl⟩

theorem dedupTag_eq (bn pl : JVal) (items : List JVal)
    (hobj : items.all isObj = true) :
    ∀ acc seen, dedupTag bn pl items acc seen =
      .ok (acc ++ (dedupStream (items.map (fun u => (u, bn, pl))) seen).1,
        (dedupStream (items.map (fun u => (u, bn, pl))) seen).2) := by
  induction items with
  | nil => intro acc seen; simp [dedupTag, dedupStream]
  | cons u us ih =>
      intro acc seen
      simp only [List.all_cons, Bool.and_eq_true] at hobj
      obtain ⟨hu, hus⟩ := hobj
      cases u with
      | obj kvs =>
          by_cases hk : userKey (.obj kvs) ∈ seen
          · simp [dedupTag, dedupStream, hk, ih hus]
          · simp [dedupTag, dedupStream, hk, ih hus]
      | null => simp [isObj] at hu
      | bool b0 => simp [isObj] at hu
      | num n0 => simp [isObj] at hu
      | str s0 => simp [isObj] at hu
      | arr xs => simp [isObj] at hu

theorem dedupStream_append (s1 s2 : List (JVal × JVal × JVal)) :
    ∀ seen, dedupStream (s1 ++ s2) seen =
      ((dedupStream s1 seen).1 ++ (dedupStream s2 (dedupStream s1 seen).2).1,
        (dedupStream s2 (dedupStream s1 seen).2).2) := by
  induction s1 with
  | nil => intro seen; simp [dedupStream]
  | cons t rest ih =>
      intro seen
      obtain ⟨u, bn, pl⟩ := t
      by_cases hk : userKey u ∈ seen
      · simp [dedupStream, hk, ih]
      · simp [dedupStream, hk, ih]

/-- Characterization of the users loop on well-formed results. -/
theorem usersLoop_spec (rs : List JVal)
    (hwf : ∀ r ∈ rs, selectedRes "users" r = true →
      ∃ items, jget r "users" = some (.arr items) ∧ items.all isObj = true) :
    ∀ acc srcs pls seen, ∃ pls',
      usersLoop rs acc srcs pls seen =
        .ok (acc ++ (dedupStream (usersStreamRes rs) seen).1,
          srcs ++ sourcesOfRes "users" rs, pls') := by
  induction rs with
  | nil =>
      intro acc srcs pls seen
      exact ⟨pls, by simp [usersLoop, usersStreamRes, dedupStream, sourcesOfRes]⟩
  | cons r rest ih =>
      intro acc srcs pls seen
      have hwfrest : ∀ r0 ∈ rest, selectedRes "users" r0 = true →
          ∃ items, jget r0 "users" = some (.arr items) ∧ items.all isObj = true :=
        fun r0 hr0 => hwf r0 (List.mem_cons_of_mem _ hr0)
      by_cases hsel : selectedRes "users" r = true
      · obtain ⟨items, hitems, hall⟩ := hwf r (List.mem_cons_self _ _) hsel
        have hres : resItems "users" r = items := by simp [resItems, hitems]
        have hD : jgetD r "users" .null = .arr items := by simp [jgetD, hitems]
        obtain ⟨pls', hrec⟩ := ih hwfrest
          (acc ++ (dedupStream (items.map (fun u => (u,
            jgetD r "_backend_name" (.str "Unknown"),
            jgetD r "_place_location" (.str "Unknown")))) seen).1)
          (srcs ++ [jgetD r "_backend_name" (.str "Unknown")])
          (if jmem (jgetD r "_place_location" (.str "Unknown")) pls then pls
           else pls ++ [jgetD r "_place_location" (.str "Unknown")])
          ((dedupStream (items.map (fun u => (u,
            jgetD r "_backend_name" (.str "Unknown"),
            jgetD r "_place_location" (.str "Unknown")))) seen).2)
        refine ⟨pls', ?_⟩
        simp only [usersLoop, hsel, if_true, hD, asArr,
          dedupTag_eq _ _ items hall acc seen]
        rw [hrec]
        simp only [usersStreamRes, hsel, if_true, hres, sourcesOfRes,
          dedupStream_append, List.append_assoc, List.singleton_append]
      · have hsel' : selectedRes "users" r = false := by
          cases hb : selectedRes "users" r
          · rfl
          · exact absurd hb hsel
        obtain ⟨pls', hrec⟩ := ih hwfrest acc srcs pls seen
        refine ⟨pls', ?_⟩
        simp only [usersLoop, hsel', Bool.false_eq_true, if_false]
        simpa [usersStreamRes, sourcesOfRes, hsel'] using hrec

/-- Characterization of `GET /users/all` under `eachClassified`. -/
theorem get_all_users_spec (backends : List Backend)
    (outcomes : Backend → UpstreamOutcome)
    (hall : eachClassified "users" backends outcomes) :
    ∃ pls, get_all_users_unified backends outcomes =
      .ok ⟨true, (dedupStream (usersStream backends outcomes) []).1,
        (backends.filter (fun b => successOutcome "users" (outcomes b))).map
          (fun b => JVal.str b.name), pls⟩ := by
  have heq := call_all_backends_eq "users" backends outcomes (by decide) (by decide)
    (by decide) (by decide) hall
  have hwf : ∀ r ∈ call_all_backends backends outcomes,
      selectedRes "users" r = true →
      ∃ items, jget r "users" = some (.arr items) ∧ items.all isObj = true := by
    rw [heq]
    intro r hr hselr
    obtain ⟨b, hb, rfl⟩ := List.mem_map.mp hr
    rcases hall b hb with hs | hfl
    · exact (call_backend_success_facts "users" b _ (by decide) (by decide)
        (by decide) (by decide) hs).2.2.2.2.2
    · obtain ⟨msg, code, hcb⟩ := call_backend_fail b _ hfl
      rw [hcb, selectedRes_errObj] at hselr
      exact absurd hselr (by simp)
  obtain ⟨pls', hul⟩ := usersLoop_spec _ hwf [] [] [] []
  refine ⟨pls', ?_⟩
  unfold get_all_users_unified
  rw [hul]
  simp only [List.nil_append, usersStream]
  rw [show sourcesOfRes "users" (call_all_backends backends outcomes) =
      (backends.filter (fun b => successOutcome "users" (outcomes b))).map
        (fun b => JVal.str b.name) from by
    rw [heq]
    exact sourcesOfRes_backends "users" backends outcomes (by decide) (by decide)
      (by decide) (by decide) hall]

/-- A user carrying the string pair (n, i) has concatenated key n-"-"-i. -/
theorem hasNameUserid_userKey (u : JVal) (n i : String)
    (h : hasNameUserid u n i = true) : userKey u = n ++ "-" ++ i := by
  unfold hasNameUserid at h
  rw [Bool.and_eq_true] at h
  obtain ⟨h1, h2⟩ := h
  unfold userKey jgetD
  cases hn : jget u "name" with
  | none => rw [hn] at h1; simp at h1
  | some v =>
      cases v with
      | str s =>
          rw [hn] at h1
          simp only [beq_iff_eq] at h1
          subst h1
          cases hi : jget u "userid" with
          | none => rw [hi] at h2; simp at h2
          | some w =>
              cases w with
              | str t =>
                  rw [hi] at h2
                  simp only [beq_iff_eq] at h2
                  subst h2
                  simp [hn, hi, pyStr]
              | null => rw [hi] at h2; simp at h2
              | bool b0 => rw [hi] at h2; simp at h2
              | num n0 => rw [hi] at h2; simp at h2
              | arr xs => rw [hi] at h2; simp at h2
              | obj kvs => rw [hi] at h2; simp at h2
      | null => rw [hn] at h1; simp at h1
      | bool b0 => rw [hn] at h1; simp at h1
      | num n0 => rw [hn] at h1; simp at h1
      | arr xs => rw [hn] at h1; simp at h1
      | obj kvs => rw [hn] at h1; simp at h1

/-- Tagging with backend identity does not disturb name or userid. -/
theorem hasNameUserid_tagMerged (u bn pl : JVal) (n i : String) :
    hasNameUserid (tagMerged bn pl u) n i = hasNameUserid u n i := by
  unfold hasNameUserid tagMerged
  rw [jget_jset_ne' _ _ _ _ (by decide), jget_jset_ne' _ _ _ _ (by decide),
    jget_jset_ne' _ _ _ _ (by decide), jget_jset_ne' _ _ _ _ (by decide)]

/-- Once the key of the pair is in the seen set, no later user with that
pair (and, absent collisions, no user at all with that pair) survives. -/
theorem dedupStream_countP_zero (n i : String) :
    ∀ (S : List (JVal × JVal × JVal)) (seen : List String),
      (n ++ "-" ++ i) ∈ seen →
      ((dedupStream S seen).1.countP (fun u => hasNameUserid u n i)) = 0 := by
  intro S
  induction S with
  | nil => intro seen hm; simp [dedupStream]
  | cons t rest ih =>
      intro seen hm
      obtain ⟨u, bn, pl⟩ := t
      by_cases hk : userKey u ∈ seen
      · simp only [dedupStream, hk, if_true]
        exact ih seen hm
      · have hpu : hasNameUserid u n i = false := by
          cases hb : hasNameUserid u n i
          · rfl
          · exact absurd (hasNameUserid_userKey u n i hb ▸ hk) (by simp [hm])
        simp only [dedupStream, hk, if_false]
        rw [List.countP_cons_of_neg _ _ (by simp [hasNameUserid_tagMerged, hpu])]
        exact ih (seen ++ [userKey u]) (List.mem_append_left _ hm)

/-- First-occurrence-wins deduplication: when the pair (n, i) occurs in the
stream, its key is unseen, and no other pair collides with its key, exactly
one entry with that pair survives — the first stream occurrence, tagged
with its own backend identity. -/
theorem dedupStream_unique (n i : String) :
    ∀ (S : List (JVal × JVal × JVal)) (seen : List String),
      (∀ t ∈ S, userKey t.1 = n ++ "-" ++ i → hasNameUserid t.1 n i = true) →
      (∃ t ∈ S, hasNameUserid t.1 n i = true) →
      (n ++ "-" ++ i) ∉ seen →
      ((dedupStream S seen).1.countP (fun u => hasNameUserid u n i) = 1 ∧
       (dedupStream S seen).1.find? (fun u => hasNameUserid u n i) =
         (S.find? (fun t => hasNameUserid t.1 n i)).map
           (fun t => tagMerged t.2.1 t.2.2 t.1)) := by
  intro S
  induction S with
  | nil =>
      intro seen hK hex hseen
      obtain ⟨t, ht, -⟩ := hex
      exact absurd ht (List.not_mem_nil t)
  | cons t rest ih =>
      intro seen hK hex hseen
      obtain ⟨u, bn, pl⟩ := t
      by_cases hp : hasNameUserid u n i = true
      · have hKu : userKey u = n ++ "-" ++ i := hasNameUserid_userKey u n i hp
        have hk : userKey u ∉ seen := by rw [hKu]; exact hseen
        simp only [dedupStream, hk, if_false]
        have hzero : ((dedupStream rest (seen ++ [userKey u])).1.countP
            (fun u0 => hasNameUserid u0 n i)) = 0 :=
          dedupStream_countP_zero n i rest _
            (by rw [hKu] at *; exact List.mem_append_right _ (List.mem_singleton.mpr rfl))
        constructor
        · rw [List.countP_cons_of_pos _ _ (by simp [hasNameUserid_tagMerged, hp])]
          rw [hzero]
        · rw [List.find?_cons_of_pos _ (by simp [hasNameUserid_tagMerged, hp]),
            List.find?_cons_of_pos _ (by simpa using hp)]
          rfl
      · have hpu : hasNameUserid u n i = false := by
          cases hb : hasNameUserid u n i
          · rfl
          · exact absurd hb hp
        have hKu : userKey u ≠ n ++ "-" ++ i := by
          intro he
          have := hK (u, bn, pl) (List.mem_cons_self _ _) he
          rw [hpu] at this
          exact absurd this (by simp)
        have hKrest : ∀ t0 ∈ rest, userKey t0.1 = n ++ "-" ++ i →
            hasNameUserid t0.1 n i = true :=
          fun t0 ht0 => hK t0 (List.mem_cons_of_mem _ ht0)
        have hexrest : ∃ t0 ∈ rest, hasNameUserid t0.1 n i = true := by
          obtain ⟨t0, ht0, hpt0⟩ := hex
          rcases List.mem_cons.mp ht0 with rfl | hmem
          · rw [hpu] at hpt0; exact absurd hpt0 (by simp)
          · exact ⟨t0, hmem, hpt0⟩
        by_cases hk : userKey u ∈ seen
        · simp only [dedupStream, hk, if_true]
          obtain ⟨hc, hf⟩ := ih seen hKrest hexrest hseen
          refine ⟨hc, ?_⟩
          rw [hf, List.find?_cons_of_neg _ (by simpa using hpu)]
        · simp only [dedupStream, hk, if_false]
          have hseen' : (n ++ "-" ++ i) ∉ seen ++ [userKey u] := by
            intro hmem
            rcases List.mem_append.mp hmem with h1 | h2
            · exact hseen h1
            · exact hKu (List.mem_singleton.mp h2).symm
          obtain ⟨hc, hf⟩ := ih (seen ++ [userKey u]) hKrest hexrest hseen'
          constructor
          · rw [List.countP_cons_of_neg _ _ (by simp [hasNameUserid_tagMerged, hpu])]
            exact hc
          · rw [List.find?_cons_of_neg _ (by simp [hasNameUserid_tagMerged, hpu]),
              List.find?_cons_of_neg _ (by simpa using hpu)]
            exact hf

/-- C8 (amended): if two or more backend targets report users with an
identical string pair (name, userid), and no user anywhere in the fan-out
stream has a different pair mapping to the same concatenated key
name-"-"-userid, then the unified user listing contains exactly one entry
for that pair — the first occurrence encountered across targets, keeping
only that first backend's association; later duplicates are dropped without
merging their backend associations. -/
theorem claim_C8_dedup_first_wins_amended (backends : List Backend)
    (outcomes : Backend → UpstreamOutcome) (n i : String)
    (hall : eachClassified "users" backends outcomes)
    (htwo : 2 ≤ (usersStream backends outcomes).countP
      (fun t => hasNameUserid t.1 n i))
    (hnocol : ∀ t ∈ usersStream backends outcomes,
      userKey t.1 = n ++ "-" ++ i → hasNameUserid t.1 n i = true) :
    ∃ resp, get_all_users_unified backends outcomes = .ok resp ∧
      resp.items.countP (fun u => hasNameUserid u n i) = 1 ∧
      resp.items.find? (fun u => hasNameUserid u n i) =
        ((usersStream backends outcomes).find?
          (fun t => hasNameUserid t.1 n i)).map
          (fun t => tagMerged t.2.1 t.2.2 t.1) := by
  obtain ⟨pls, hrun⟩ := get_all_users_spec backends outcomes hall
  have hex : ∃ t ∈ usersStream backends outcomes, hasNameUserid t.1 n i = true := by
    rw [← List.countP_pos_iff]
    omega
  obtain ⟨hc, hf⟩ := dedupStream_unique n i (usersStream backends outcomes) []
    hnocol hex (List.not_mem_nil _)
  exact ⟨_, hrun, hc, hf⟩

/-- C8 counterexample: targets B2 and B3 each report a user with the
identical pair ("a","b-c") (two occurrences in the fan-out stream), yet the
unified listing contains zero entries for that pair — not exactly one as
the claim demands — because B1's distinct pair ("a-b","c") occupies the
same concatenated key "a-b-c" first. -/
theorem claim_C8_counterexample :
    ((usersStream c8x_backends c8x_oc).countP
      (fun t => hasNameUserid t.1 "a" "b-c")) = 2 ∧
    get_all_users_unified c8x_backends c8x_oc =
      .ok ⟨true,
        [.obj [("name", .str "a-b"), ("userid", .str "c"),
               ("backend_name", .str "B1"), ("place_location", .str "LB1")]],
        [.str "B1", .str "B2", .str "B3"], [.str "LB1", .str "LB2", .str "LB3"]⟩ ∧
    ([JVal.obj [("name", .str "a-b"), ("userid", .str "c"),
        ("backend_name", .str "B1"), ("place_location", .str "LB1")]].countP
      (fun u => hasNameUserid u "a" "b-c")) = 0 :=
  ⟨rfl, rfl, rfl⟩

theorem claim_C8_dedup_first_wins_amended_witness :
    eachClassified "users" c8_backends c8_oc ∧
    2 ≤ (usersStream c8_backends c8_oc).countP
      (fun t => hasNameUserid t.1 "alice" "7") ∧
    (∀ t ∈ usersStream c8_backends c8_oc,
      userKey t.1 = "alice" ++ "-" ++ "7" → hasNameUserid t.1 "alice" "7" = true) ∧
    (∃ resp, get_all_users_unified c8_backends c8_oc = .ok resp ∧
      resp.items.countP (fun u => hasNameUserid u "alice" "7") = 1 ∧
      resp.items.find? (fun u => hasNameUserid u "alice" "7") =
        ((usersStream c8_backends c8_oc).find?
          (fun t => hasNameUserid t.1 "alice" "7")).map
          (fun t => tagMerged t.2.1 t.2.2 t.1)) := by
  have h1 : eachClassified "users" c8_backends c8_oc := by
    unfold eachClassified; decide
  have h2 : 2 ≤ (usersStream c8_backends c8_oc).countP
      (fun t => hasNameUserid t.1 "alice" "7") := by decide
  have h3 : ∀ t ∈ usersStream c8_backends c8_oc,
      userKey t.1 = "alice" ++ "-" ++ "7" →
      hasNameUserid t.1 "alice" "7" = true := by decide
  exact ⟨h1, h2, h3,
    claim_C8_dedup_first_wins_amended c8_backends c8_oc "alice" "7" h1 h2 h3⟩

/-- C2: whenever a client that is not currently blocked has at least N
timestamps inside the sliding window at time t (i.e. it has already issued
N in-window requests), the request at t is rejected with 429 and a block
until t+300 is installed; and at every instant t' with t < t' < t+300 —
even one at which the original window has long elapsed — the next check is
again rejected with 429 and leaves the state unchanged, so every further
request before the block expires is rejected as well. -/
theorem claim_C2_rate_limit_block (cfg : RLConfig) (s : ClientState) (t t' : ℚ)
    (hnb : isBlocked s.blockedUntil t = false)
    (hcount : cfg.rate_limit_requests ≤
      (s.timestamps.filter (fun x => t - cfg.rate_limit_window < x)).length)
    (ht1 : t < t') (ht2 : t' < t + 300) :
    (check_rate_limit cfg s t).1 = false ∧
    (check_rate_limit cfg s t).2.blockedUntil = some (t + 300) ∧
    (rate_limit_status cfg s t).1 = some 429 ∧
    (check_rate_limit cfg (check_rate_limit cfg s t).2 t').1 = false ∧
    (check_rate_limit cfg (check_rate_limit cfg s t).2 t').2 =
      (check_rate_limit cfg s t).2 ∧
    (rate_limit_status cfg (check_rate_limit cfg s t).2 t').1 = some 429 := by
  have hcore : check_rate_limit cfg s t =
      (false, ⟨s.timestamps.filter (fun x => t - cfg.rate_limit_window < x),
        some (t + 300)⟩) := by
    have h0 : check_rate_limit_core cfg s.timestamps t =
        (false, ⟨s.timestamps.filter (fun x => t - cfg.rate_limit_window < x),
          some (t + 300)⟩) := by
      unfold check_rate_limit_core
      simp only [hcount, if_true]
    unfold check_rate_limit
    cases hb : s.blockedUntil with
    | none => exact h0
    | some b =>
        rw [hb] at hnb
        simp only [isBlocked] at hnb
        simp only [hnb]
        rw [if_neg (by simpa using hnb)]
        exact h0
  have hblocked2 : check_rate_limit cfg
      (⟨s.timestamps.filter (fun x => t - cfg.rate_limit_window < x),
        some (t + 300)⟩ : ClientState) t' =
      (false, ⟨s.timestamps.filter (fun x => t - cfg.rate_limit_window < x),
        some (t + 300)⟩) := by
    unfold check_rate_limit
    simp only []
    rw [if_pos ht2]
  rw [hcore]
  refine ⟨rfl, rfl, ?_, ?_, ?_, ?_⟩
  · unfold rate_limit_status
    rw [hcore]
    rfl
  · rw [hblocked2]
  · rw [hblocked2]
  · unfold rate_limit_status
    rw [hblocked2]
    rfl

theorem claim_C2_rate_limit_block_witness :
    isBlocked (ClientState.blockedUntil ⟨[1, 2, 3], none⟩) 4 = false ∧
    (3 : Nat) ≤ ((ClientState.timestamps ⟨[1, 2, 3], none⟩).filter
      (fun x => (4 : ℚ) - 10 < x)).length ∧
    (4 : ℚ) < 200 ∧ (200 : ℚ) < 4 + 300 ∧
    ((check_rate_limit ⟨3, 10⟩ ⟨[1, 2, 3], none⟩ 4).1 = false ∧
     (check_rate_limit ⟨3, 10⟩ ⟨[1, 2, 3], none⟩ 4).2.blockedUntil = some (4 + 300) ∧
     (rate_limit_status ⟨3, 10⟩ ⟨[1, 2, 3], none⟩ 4).1 = some 429 ∧
     (check_rate_limit ⟨3, 10⟩ (check_rate_limit ⟨3, 10⟩ ⟨[1, 2, 3], none⟩ 4).2 200).1 = false ∧
     (check_rate_limit ⟨3, 10⟩ (check_rate_limit ⟨3, 10⟩ ⟨[1, 2, 3], none⟩ 4).2 200).2 =
       (check_rate_limit ⟨3, 10⟩ ⟨[1, 2, 3], none⟩ 4).2 ∧
     (rate_limit_status ⟨3, 10⟩ (check_rate_limit ⟨3, 10⟩ ⟨[1, 2, 3], none⟩ 4).2 200).1 =
       some 429) :=
  ⟨rfl, by norm_num [List.filter_cons], by norm_num, by norm_num,
   claim_C2_rate_limit_block ⟨3, 10⟩ ⟨[1, 2, 3], none⟩ 4 200 rfl
     (by norm_num [List.filter_cons]) (by norm_num) (by norm_num)⟩

/-- C6: a rate-limit check against a client whose block instant lies in the
future rejects the request and returns the state completely unchanged — no
timestamp is pruned and none is appended. -/
theorem claim_C6_blocked_state_unchanged (cfg : RLConfig) (s : ClientState)
    (t b : ℚ) (hb : s.blockedUntil = some b) (hf : t < b) :
    (check_rate_limit cfg s t).1 = false ∧
    (check_rate_limit cfg s t).2 = s ∧
    (rate_limit_status cfg s t).1 = some 429 := by
  have hcr : check_rate_limit cfg s t = (false, s) := by
    unfold check_rate_limit
    rw [hb]
    simp only []
    rw [if_pos hf]
  refine ⟨by rw [hcr], by rw [hcr], ?_⟩
  unfold rate_limit_status
  rw [hcr]
  rfl

theorem claim_C6_blocked_state_unchanged_witness :
    (ClientState.blockedUntil ⟨[5, 6], some 40⟩ = some 40) ∧ (7 : ℚ) < 40 ∧
    ((check_rate_limit ⟨3, 10⟩ ⟨[5, 6], some 40⟩ 7).1 = false ∧
     (check_rate_limit ⟨3, 10⟩ ⟨[5, 6], some 40⟩ 7).2 = ⟨[5, 6], some 40⟩ ∧
     (rate_limit_status ⟨3, 10⟩ ⟨[5, 6], some 40⟩ 7).1 = some 429) :=
  ⟨rfl, by norm_num,
   claim_C6_blocked_state_unchanged ⟨3, 10⟩ ⟨[5, 6], some 40⟩ 7 40 rfl (by norm_num)⟩

/-- C3 (code bug): a POST body containing the path-traversal sequence
`../../etc/passwd` (or a `<script>` tag) is recognized as malicious by
`is_safe_request`, and the `try` block does raise `HTTPException(400)` for
it — but the enclosing `except Exception: pass`, written to tolerate
body-read failures, also catches that `HTTPException`, so the middleware
falls through to the route handler instead of rejecting with 400. The
claim (and spec) describes the intended 400; the code swallows it. -/
theorem claim_C3_malicious_body_swallowed :
    is_safe_request "../../etc/passwd" = false ∧
    is_safe_request "<script>alert(1)</script>" = false ∧
    contentScanInner (.ok "../../etc/passwd") = .error (.httpException 400) ∧
    contentScanInner (.ok "<script>alert(1)</script>") = .error (.httpException 400) ∧
    contentScanStep "POST" (.ok "../../etc/passwd") = none ∧
    contentScanStep "POST" (.ok "<script>alert(1)</script>") = none ∧
    contentScanStepSpec "POST" (.ok "../../etc/passwd") = some 400 ∧
    contentScanStep "POST" .failure = none ∧
    contentScanStepSpec "POST" .failure = none := by
  exact ⟨rfl, rfl, rfl, rfl, rfl, rfl, rfl, rfl, rfl⟩

/-- C9: with an empty configured allow-list, `is_ip_allowed` returns true
for every client address (default-open), and the middleware's IP gate is
skipped entirely — no request is rejected with 403 on IP grounds. -/
theorem claim_C9_empty_allowlist_default_open (client_ip : String) :
    is_ip_allowed [] client_ip = true ∧ ip_gate_status [] client_ip = none := by
  constructor
  · simp [is_ip_allowed, List.isEmpty]
  · simp [ip_gate_status, List.isEmpty]

theorem claim_C9_empty_allowlist_default_open_witness :
    is_ip_allowed [] "203.0.113.7" = true ∧
    ip_gate_status [] "203.0.113.7" = none :=
  claim_C9_empty_allowlist_default_open "203.0.113.7"

/-- C4: a token created at `issue` with the configured TTL of
`jwt_expire_hours` hours verifies successfully — returning the embedded
payload — at every instant strictly before `issue + TTL`, and fails
verification at every instant strictly after `issue + TTL`. -/
theorem claim_C4_token_ttl (secret : String) (jwt_expire_hours : Int)
    (issue t : Int) (payload : List (String × JVal)) :
    (t < issue + 3600 * jwt_expire_hours →
      verify_jwt_token secret t
        (create_jwt_token secret jwt_expire_hours issue payload) =
        some (jwtFullPayload jwt_expire_hours issue payload)) ∧
    (issue + 3600 * jwt_expire_hours < t →
      verify_jwt_token secret t
        (create_jwt_token secret jwt_expire_hours issue payload) = none) := by
  have hexp : jlookup (jsetList (jsetList (jsetList payload
      "exp" (.num (issue + 3600 * jwt_expire_hours))) "iat" (.num issue))
      "iss" (.str "BiometricFlow-ZK")) "exp" =
      some (.num (issue + 3600 * jwt_expire_hours)) := by
    rw [jlookup_jsetList_ne _ _ _ _ (by decide),
      jlookup_jsetList_ne _ _ _ _ (by decide),
      jlookup_jsetList_same]
  constructor
  · intro hlt
    simp only [create_jwt_token, verify_jwt_token, bne_self_eq_false,
      Bool.false_eq_true, if_false, hexp]
    rw [if_neg (by omega)]
    rfl
  · intro hgt
    simp only [create_jwt_token, verify_jwt_token, bne_self_eq_false,
      Bool.false_eq_true, if_false, hexp]
    rw [if_pos (by omega)]

theorem claim_C4_token_ttl_witness :
    ((100 : Int) < 0 + 3600 * 24 ∧
      verify_jwt_token "sek" 100 (create_jwt_token "sek" 24 0 [("gateway", .bool true)]) =
        some (jwtFullPayload 24 0 [("gateway", .bool true)])) ∧
    (0 + 3600 * 24 < (90000 : Int) ∧
      verify_jwt_token "sek" 90000 (create_jwt_token "sek" 24 0 [("gateway", .bool true)]) =
        none) :=
  ⟨⟨by norm_num,
    (claim_C4_token_ttl "sek" 24 0 100 [("gateway", .bool true)]).1 (by norm_num)⟩,
   ⟨by norm_num,
    (claim_C4_token_ttl "sek" 24 0 90000 [("gateway", .bool true)]).2 (by norm_num)⟩⟩

/-- C5: `verify_jwt_token` is a total function into `Option` — it never
throws to its caller — and returns the invalid result `None` on every bad
signature, every expired token, and every malformed token; in particular an
expired (correctly signed) token is indistinguishable, through the
verification interface, from a token with no valid signature or a malformed
one. -/
theorem claim_C5_verify_total_and_uniform (secret : String) (now : Int) :
    (∀ raw, verify_jwt_token secret now (.malformed raw) = none) ∧
    (∀ payload s, s ≠ secret →
      verify_jwt_token secret now (.signed payload s) = none) ∧
    (∀ payload e, jlookup payload "exp" = some (.num e) → e < now →
      verify_jwt_token secret now (.signed payload secret) = none) ∧
    (∀ payload s raw payload' e, s ≠ secret →
      jlookup payload' "exp" = some (.num e) → e < now →
      verify_jwt_token secret now (.signed payload' secret) =
        verify_jwt_token secret now (.signed payload s) ∧
      verify_jwt_token secret now (.signed payload' secret) =
        verify_jwt_token secret now (.malformed raw)) := by
  have hbad : ∀ (payload : List (String × JVal)) s, s ≠ secret →
      verify_jwt_token secret now (.signed payload s) = none := by
    intro payload s hs
    simp [verify_jwt_token, hs]
  have hexp : ∀ (payload : List (String × JVal)) e,
      jlookup payload "exp" = some (.num e) → e < now →
      verify_jwt_token secret now (.signed payload secret) = none := by
    intro payload e he hlt
    simp only [verify_jwt_token, bne_self_eq_false, Bool.false_eq_true,
      if_false, he]
    rw [if_pos hlt]
  refine ⟨fun raw => rfl, hbad, hexp, ?_⟩
  intro payload s raw payload' e hs he hlt
  rw [hexp payload' e he hlt, hbad payload s hs]
  exact ⟨rfl, rfl⟩

theorem claim_C5_verify_total_and_uniform_witness :
    verify_jwt_token "sek" 50 (.malformed "garbage") = none ∧
    verify_jwt_token "sek" 50 (.signed [("exp", .num 100)] "other") = none ∧
    verify_jwt_token "sek" 50 (.signed [("exp", .num 10)] "sek") = none ∧
    verify_jwt_token "sek" 50 (.signed [("exp", .num 10)] "sek") =
      verify_jwt_token "sek" 50 (.signed [("exp", .num 100)] "other") ∧
    verify_jwt_token "sek" 50 (.signed [("exp", .num 10)] "sek") =
      verify_jwt_token "sek" 50 (.malformed "garbage") := by
  have h := claim_C5_verify_total_and_uniform "sek" 50
  have h4 := h.2.2.2 [("exp", .num 100)] "other" "garbage" [("exp", .num 10)] 10
    (by decide) rfl (by norm_num)
  exact ⟨h.1 "garbage", h.2.1 [("exp", .num 100)] "other" (by decide),
    h.2.2.1 [("exp", .num 10)] 10 rfl (by norm_num), h4.1, h4.2⟩

end BiometricFlow

